import Mathlib

/-!
Shallow embedding of the `node-steamcmd` install/progress pipeline
(`src/install.ts`): option validation, SteamCMD argument construction,
output-line progress parsing, and the child-process run lifecycle
(progress / output / completion events) for both the callback surface
(`install`) and the event-emitter surface (`installWithProgress`).

Modelling conventions:
* JavaScript `number | string` field values are modelled by `JsValue`;
  finite numbers are exact rationals (idealising IEEE float64), with
  distinguished `nan` / infinity constructors so that truthiness and the
  `Number.isNaN` / `<= 0` / `Number.isInteger` checks of the source can be
  transcribed literally.
* Optional fields are `Option _`; JavaScript truthiness of an optional
  string is `none`/`some ""` ↦ false.
* The child process is an environment parameter.  `installEvents` runs
  the registered handlers over an arbitrary delivered event sequence
  (stdout/stderr data, `error`, `close`), which covers Node's documented
  delivery on spawn failure — `error` followed by `close` with a `null`
  exit code.  `ProcBehavior` packages the single-terminal deliveries
  (data chunks, then exactly one `error` or `close`) that describe every
  run whose process actually exits.  A run is the list of observable
  actions (spawn, progress-sink calls, output-sink calls,
  completion-callback calls) the code performs, in program order.
-/

/-- Value of a JavaScript `number | string` field.  Finite numbers are
modelled as exact rationals (an idealisation of float64); `nan` and the
infinities are separate so the validation checks can be transcribed
literally from the source. -/
inductive JsValue where
  | nan : JsValue
  | posInf : JsValue
  | negInf : JsValue
  | num : ℚ → JsValue
  | str : String → JsValue
deriving DecidableEq, Repr

/-- Whitespace class used by the `Number(string)` trim (ASCII subset of
the JavaScript whitespace characters). -/
def jsStrWs (c : Char) : Bool :=
  c == ' ' || c == '\t' || c == '\n' || c == '\r' || c == '\x0b' || c == '\x0c'

/-- Modelled subset of the JavaScript `Number(string)` conversion used by
`validateOptions`: the string is trimmed; an empty remainder converts to
`0`; an optional sign followed by decimal digits, an optional fractional
part, or `Infinity` converts to the corresponding value; every other form
(hex, exponent notation, garbage) converts to `NaN`.  The forms omitted
here are never produced by this repository's call sites. -/
def strToNumber (s : String) : JsValue :=
  let t := ((s.data.dropWhile jsStrWs).reverse.dropWhile jsStrWs).reverse
  if t.isEmpty then .num 0
  else
    let signAndRest : Bool × List Char :=
      match t with
      | '-' :: r => (true, r)
      | '+' :: r => (false, r)
      | r => (false, r)
    let neg := signAndRest.1
    let body := signAndRest.2
    if body = "Infinity".data then (if neg then .negInf else .posInf)
    else
      let ip := body.takeWhile Char.isDigit
      let rest := body.drop ip.length
      match rest with
      | [] =>
          if ip.isEmpty then .nan
          else
            let v : ℚ := (ip.foldl (fun n c => 10 * n + (c.toNat - 48)) 0 : ℕ)
            .num (if neg then -v else v)
      | '.' :: fracPart =>
          let fp := fracPart.takeWhile Char.isDigit
          if fracPart.drop fp.length ≠ [] then .nan
          else if ip.isEmpty ∧ fp.isEmpty then .nan
          else
            let iv : ℚ := (ip.foldl (fun n c => 10 * n + (c.toNat - 48)) 0 : ℕ)
            let fv : ℚ :=
              ((fp.foldl (fun n c => 10 * n + (c.toNat - 48)) 0 : ℕ) : ℚ) /
                ((10 : ℚ) ^ fp.length)
            let v := iv + fv
            .num (if neg then -v else v)
      | _ => .nan

/-- JavaScript `Number(v)` on a `number | string` value. -/
def jsToNumber : JsValue → JsValue
  | .nan => .nan
  | .posInf => .posInf
  | .negInf => .negInf
  | .num q => .num q
  | .str s => strToNumber s

/-- JavaScript `Number.isNaN` (applied after `Number(...)` conversion). -/
def jsIsNaN : JsValue → Bool
  | .nan => true
  | _ => false

/-- JavaScript `v <= 0` for a number value (`NaN` comparisons are false). -/
def jsLeZero : JsValue → Bool
  | .nan => false
  | .posInf => false
  | .negInf => true
  | .num q => decide (q ≤ 0)
  | .str _ => false

/-- JavaScript `Number.isInteger` for a number value. -/
def jsIsInteger : JsValue → Bool
  | .num q => q.den == 1
  | _ => false

/-- JavaScript truthiness of a `number | string` value. -/
def jsTruthy : JsValue → Bool
  | .nan => false
  | .posInf => true
  | .negInf => true
  | .num q => q != 0
  | .str s => !s.isEmpty

/-- Truthiness of an optional `number | string` field (`undefined` is
falsy). -/
def optValTruthy : Option JsValue → Bool
  | none => false
  | some v => jsTruthy v

/-- Truthiness of an optional string field (`undefined` and `""` are
falsy). -/
def strOptTruthy : Option String → Bool
  | none => false
  | some s => !s.isEmpty

/-- String conversion used when a `number | string` id is concatenated
into a command token.  Integral numbers print in decimal; non-integral
rationals never reach this function on a validated path and are given the
Lean `Rat` rendering. -/
def jsValToString : JsValue → String
  | .nan => "NaN"
  | .posInf => "Infinity"
  | .negInf => "-Infinity"
  | .num q => if q.den == 1 then toString q.num else toString q
  | .str s => s

/-- Valid platform values for SteamCMD (the TypeScript union type
`"windows" | "macos" | "linux"`). -/
inductive SteamPlatform where
  | windows : SteamPlatform
  | macos : SteamPlatform
  | linux : SteamPlatform
deriving DecidableEq, Repr

/-- String carried by a `SteamPlatform` value. -/
def SteamPlatform.asString : SteamPlatform → String
  | .windows => "windows"
  | .macos => "macos"
  | .linux => "linux"

/-- The `VALID_PLATFORMS` list of the source. -/
def VALID_PLATFORMS : List SteamPlatform := [.windows, .macos, .linux]

/-- Options for install operations (the TypeScript `InstallOptions`
interface; the `onProgress` / `onOutput` callback fields are modelled by
the run trace instead of being stored). -/
structure InstallOptions where
  applicationId : Option JsValue := none
  workshopId : Option JsValue := none
  path : Option String := none
  username : Option String := none
  password : Option String := none
  steamGuardCode : Option String := none
  platform : Option SteamPlatform := none
deriving DecidableEq, Repr

/-- Custom error class for installation failures (class `InstallError`):
message, machine-readable code, optional exit code and captured
stdout/stderr. -/
structure InstallError where
  message : String
  code : String
  exitCode : Option ℕ := none
  stdout : Option String := none
  stderr : Option String := none
deriving DecidableEq, Repr

/-- Validate installation options (function `validateOptions`); `some e`
models `throw e`, `none` models a normal return.  The checks appear in
source order: applicationId shape, workshopId presence/shape, platform
membership, password/username pairing, steamGuardCode/username pairing.
In the typed model the options argument is always an object, so the
initial `INVALID_OPTIONS` guard of the source cannot fire and is not
represented. -/
def validateOptions (o : InstallOptions) : Option InstallError :=
  if (match o.applicationId with
      | some v =>
          let appId := jsToNumber v
          jsIsNaN appId || jsLeZero appId || !jsIsInteger appId
      | none => false) then
    some ⟨"applicationId must be a positive integer", "INVALID_APP_ID", none, none, none⟩
  else if o.workshopId.isSome && !optValTruthy o.applicationId then
    some ⟨"workshopId requires applicationId to be specified", "MISSING_APP_ID", none, none, none⟩
  else if (match o.workshopId with
      | some v =>
          let workshopId := jsToNumber v
          jsIsNaN workshopId || jsLeZero workshopId || !jsIsInteger workshopId
      | none => false) then
    some ⟨"workshopId must be a positive integer", "INVALID_WORKSHOP_ID", none, none, none⟩
  else if (match o.platform with
      | some p => !VALID_PLATFORMS.contains p
      | none => false) then
    some ⟨"platform must be one of: windows, macos, linux", "INVALID_PLATFORM", none, none, none⟩
  else if strOptTruthy o.password && !strOptTruthy o.username then
    some ⟨"password requires username to be specified", "MISSING_USERNAME", none, none, none⟩
  else if strOptTruthy o.steamGuardCode && !strOptTruthy o.username then
    some ⟨"steamGuardCode requires username to be specified", "MISSING_USERNAME", none, none, none⟩
  else
    none

/-- Platform-forcing block of `createArguments` (`if (options.platform)`;
the three platform strings are all non-empty, hence truthy). -/
def platformArgs (o : InstallOptions) : List String :=
  match o.platform with
  | some p => ["+@sSteamCmdForcePlatformType " ++ p.asString]
  | none => []

/-- Steam-guard block of `createArguments`
(`if (options.steamGuardCode)`, string truthiness). -/
def guardArgs (o : InstallOptions) : List String :=
  match o.steamGuardCode with
  | some s => if !s.isEmpty then ["+set_steam_guard_code " ++ s] else []
  | none => []

/-- Authentication block of `createArguments`: username+password, bare
username, or anonymous login. -/
def loginArgs (o : InstallOptions) : List String :=
  if strOptTruthy o.username && strOptTruthy o.password then
    ["+login " ++ o.username.getD "" ++ " " ++ o.password.getD ""]
  else if strOptTruthy o.username then
    ["+login " ++ o.username.getD ""]
  else
    ["+login anonymous"]

/-- Install-directory block of `createArguments` (`if (options.path)`). -/
def pathArgs (o : InstallOptions) : List String :=
  match o.path with
  | some p => if !p.isEmpty then ["+force_install_dir \"" ++ p ++ "\""] else []
  | none => []

/-- App-update block of `createArguments`
(`if (options.applicationId && !options.workshopId)`). -/
def appArgs (o : InstallOptions) : List String :=
  if optValTruthy o.applicationId && !optValTruthy o.workshopId then
    ["+app_update " ++ jsValToString ((o.applicationId).getD (.num 0)) ++ " validate"]
  else []

/-- Workshop-download block of `createArguments`
(`if (options.applicationId && options.workshopId)`). -/
def workshopArgs (o : InstallOptions) : List String :=
  if optValTruthy o.applicationId && optValTruthy o.workshopId then
    ["+workshop_download_item " ++ jsValToString ((o.applicationId).getD (.num 0)) ++ " "
      ++ jsValToString ((o.workshopId).getD (.num 0))]
  else []

/-- Build SteamCMD command line arguments (function `createArguments`):
the pushes of the source in order — platform forcing, the two fixed
configuration tokens, steam-guard code, login, install directory,
app-update or workshop-download, and the terminal quit token. -/
def createArguments (o : InstallOptions) : List String :=
  platformArgs o
    ++ ["+@NoPromptForPassword 1", "+@ShutdownOnFailedCommand 1"]
    ++ guardArgs o
    ++ loginArgs o
    ++ pathArgs o
    ++ appArgs o
    ++ workshopArgs o
    ++ ["+quit"]

/-- Numeric value stored in a `Progress` record.  Every number this module
ever stores there is an integer or `NaN` (results of `Math.round`,
`parseInt` on digit runs, or the literals 0 and 100), so the model uses
`ℤ ∪ {NaN}`. -/
inductive JsNumber where
  | nan : JsNumber
  | int : ℤ → JsNumber
deriving DecidableEq, Repr

/-- Progress information for install operations (interface
`InstallProgress`). -/
structure InstallProgress where
  phase : String
  percent : JsNumber
  bytesDownloaded : JsNumber
  totalBytes : JsNumber
deriving DecidableEq, Repr

/-- Character class `\d` of the source regexes (ASCII digits). -/
def charDigit (c : Char) : Bool := c.isDigit

/-- Character class `[\da-f]` under the `i` flag. -/
def charHex (c : Char) : Bool :=
  c.isDigit || ('a' ≤ c && c ≤ 'f') || ('A' ≤ c && c ≤ 'F')

/-- Character class `\w` (`[A-Za-z0-9_]`). -/
def charWord (c : Char) : Bool := c.isAlphanum || c == '_'

/-- Character class `[\d.]`. -/
def charDigitDot (c : Char) : Bool := c.isDigit || c == '.'

/-- Character class `\s`, restricted to the ASCII whitespace characters
(the only whitespace SteamCMD output contains). -/
def charWs (c : Char) : Bool :=
  c == ' ' || c == '\t' || c == '\n' || c == '\r' || c == '\x0b' || c == '\x0c'

/-- Match a literal regex fragment case-insensitively (the `i` flag)
against the head of the input; returns the remainder on success. -/
def matchLitCI : List Char → List Char → Option (List Char)
  | [], s => some s
  | _ :: _, [] => none
  | c :: cs, d :: ds => if c.toLower == d.toLower then matchLitCI cs ds else none

/-- Digit run to the number `parseInt(run, 10)` yields. -/
def digitsToNat (cs : List Char) : ℕ :=
  cs.foldl (fun n c => 10 * n + (c.toNat - 48)) 0

/-- Exact value of a decimal literal `intPart.fracDigits`, kept in decimal
components so that rounding can be computed without rational arithmetic:
the value denoted is `intPart + fracNum / 10 ^ fracScale`. -/
structure DecValue where
  intPart : ℕ
  fracNum : ℕ
  fracScale : ℕ
deriving DecidableEq, Repr

/-- Rational value denoted by a `DecValue`. -/
def DecValue.toRat (d : DecValue) : ℚ :=
  (d.intPart : ℚ) + (d.fracNum : ℚ) / (10 : ℚ) ^ d.fracScale

/-- JavaScript `parseFloat` restricted to the strings the update-state
regex can capture (non-empty runs over digits and `.`): the longest
prefix of shape `digits`, `digits.digits?` or `.digits` is taken; if no
such prefix exists (the run is `.` or starts `..`) the result is `NaN`,
modelled as `none`. -/
def parseFloatDec (cs : List Char) : Option DecValue :=
  let ip := cs.takeWhile charDigit
  let rest := cs.drop ip.length
  match rest with
  | '.' :: rest2 =>
      let fp := rest2.takeWhile charDigit
      if ip.isEmpty && fp.isEmpty then none
      else some ⟨digitsToNat ip, digitsToNat fp, fp.length⟩
  | _ => if ip.isEmpty then none else some ⟨digitsToNat ip, 0, 0⟩

/-- JavaScript `Math.round` (round half toward positive infinity) on the
non-negative decimal values `parseFloat` produces here: since the
fractional part `f` of a `DecValue` satisfies `0 ≤ f < 1`, rounding adds
one exactly when `f ≥ 1/2`, that is when `2 * fracNum ≥ 10 ^ fracScale`. -/
def jsRound (d : DecValue) : ℕ :=
  d.intPart + (if 10 ^ d.fracScale ≤ 2 * d.fracNum then 1 else 0)

/-- Attempt the update-state regex
`Update state \(0x[\da-f]+\) (\w+), progress: ([\d.]+) \((\d+) \/ (\d+)\)`
(flag `i`) anchored at the head of the input, returning the four capture
groups.  Each greedy atom in the pattern is followed by a character
outside its class, so the backtracking search degenerates to this single
maximal-munch attempt. -/
def matchUpdateAt (s : List Char) : Option (List Char × List Char × List Char × List Char) := do
  let r1 ← matchLitCI "Update state (0x".data s
  let hex := r1.takeWhile charHex
  if hex.isEmpty then none else
  let r2 ← matchLitCI ") ".data (r1.drop hex.length)
  let word := r2.takeWhile charWord
  if word.isEmpty then none else
  let r3 ← matchLitCI ", progress: ".data (r2.drop word.length)
  let pct := r3.takeWhile charDigitDot
  if pct.isEmpty then none else
  let r4 ← matchLitCI " (".data (r3.drop pct.length)
  let b1 := r4.takeWhile charDigit
  if b1.isEmpty then none else
  let r5 ← matchLitCI " / ".data (r4.drop b1.length)
  let b2 := r5.takeWhile charDigit
  if b2.isEmpty then none else
  let _ ← matchLitCI ")".data (r5.drop b2.length)
  some (word, pct, b1, b2)

/-- Leftmost match of the update-state regex (`String.prototype.match`
tries every start offset from the left). -/
def searchUpdate : List Char → Option (List Char × List Char × List Char × List Char)
  | [] => none
  | c :: rest =>
      match matchUpdateAt (c :: rest) with
      | some g => some g
      | none => searchUpdate rest

/-- Attempt the validation regex `Validating[^\d]*(\d+)%` (flag `i`)
anchored at the head of the input, returning the digits group. -/
def matchValidatingAt (s : List Char) : Option (List Char) := do
  let r1 ← matchLitCI "Validating".data s
  let skip := r1.takeWhile (fun c => !charDigit c)
  let ds := (r1.drop skip.length).takeWhile charDigit
  if ds.isEmpty then none else
  let _ ← matchLitCI "%".data ((r1.drop skip.length).drop ds.length)
  some ds

/-- Leftmost match of the validation regex. -/
def searchValidating : List Char → Option (List Char)
  | [] => none
  | c :: rest =>
      match matchValidatingAt (c :: rest) with
      | some g => some g
      | none => searchValidating rest

/-- Attempt the progress-bar regex `\[(#+\s*)\]\s*(\d+)%` (flag `i`)
anchored at the head of the input, returning the digits group.  Note the
fill group `#+` requires at least one `#`. -/
def matchBarAt (s : List Char) : Option (List Char) := do
  let r1 ← matchLitCI "[".data s
  let fill := r1.takeWhile (fun c => c == '#')
  if fill.isEmpty then none else
  let ws1 := (r1.drop fill.length).takeWhile charWs
  let r2 ← matchLitCI "]".data ((r1.drop fill.length).drop ws1.length)
  let ws2 := r2.takeWhile charWs
  let ds := (r2.drop ws2.length).takeWhile charDigit
  if ds.isEmpty then none else
  let _ ← matchLitCI "%".data ((r2.drop ws2.length).drop ds.length)
  some ds

/-- Leftmost match of the progress-bar regex. -/
def searchBar : List Char → Option (List Char)
  | [] => none
  | c :: rest =>
      match matchBarAt (c :: rest) with
      | some g => some g
      | none => searchBar rest

/-- Parse SteamCMD output for progress information (function
`parseProgress`): the three recognised formats are tried in source order
— update-state, validation percentage, progress bar — and `none` is
returned when no format matches. -/
def parseProgress (s : String) : Option InstallProgress :=
  match searchUpdate s.data with
  | some (word, pct, b1, b2) =>
      some
        { phase := String.mk (word.map Char.toLower)
          percent :=
            match parseFloatDec pct with
            | none => .nan
            | some d => .int (jsRound d)
          bytesDownloaded := .int (digitsToNat b1)
          totalBytes := .int (digitsToNat b2) }
  | none =>
  match searchValidating s.data with
  | some ds => some ⟨"validating", .int (digitsToNat ds), .int 0, .int 0⟩
  | none =>
  match searchBar s.data with
  | some ds => some ⟨"downloading", .int (digitsToNat ds), .int 0, .int 0⟩
  | none => none

/-- Tag distinguishing the two standard streams in output events. -/
inductive StdStream where
  | stdoutStream : StdStream
  | stderrStream : StdStream
deriving DecidableEq, Repr

/-- One data chunk delivered by the child process on a standard stream. -/
inductive Chunk where
  | stdoutChunk : String → Chunk
  | stderrChunk : String → Chunk
deriving DecidableEq, Repr

/-- Terminal event of a child process: a spawn failure (`error` event) or
a close with an exit code (`close` event; `none` models a `null` code of
a signal-killed child, `some n` a non-negative numeric exit code). -/
inductive ProcTerminal where
  | errored : String → ProcTerminal
  | closed : Option ℕ → ProcTerminal
deriving DecidableEq, Repr

/-- Single-terminal behaviour of the spawned child process: data chunks
in arrival order, then one terminal event.  This describes every run in
which the process exits (only `close` fires) and the plain spawn-error
delivery; Node's full delivery on a failed spawn — `error` and then
still `close` — is not of this shape and is handled by `installEvents`
on a raw event list. -/
structure ProcBehavior where
  chunks : List Chunk
  terminal : ProcTerminal
deriving DecidableEq, Repr

/-- Event delivered to one of the handlers `install` registers on the
child process. -/
inductive ProcEvent where
  | stdoutData : String → ProcEvent
  | stderrData : String → ProcEvent
  | errored : String → ProcEvent
  | closed : Option ℕ → ProcEvent
deriving DecidableEq, Repr

/-- Handler event corresponding to a data chunk. -/
def chunkEvent : Chunk → ProcEvent
  | .stdoutChunk s => ProcEvent.stdoutData s
  | .stderrChunk s => ProcEvent.stderrData s

/-- Delivery order of a process behaviour to the handlers. -/
def procEvents (b : ProcBehavior) : List ProcEvent :=
  b.chunks.map chunkEvent
    ++ [match b.terminal with
        | .errored m => ProcEvent.errored m
        | .closed code => ProcEvent.closed code]

/-- Observable action of one `install` run: the `execFile` spawn with its
argument list, a call of the caller's progress sink, a call of the
caller's output sink, or the completion callback (with `null` on success
or an `InstallError` on failure).  The model assumes the caller supplied
both sinks, as `installWithProgress` does; when a sink is absent the
source logs to the console instead, which changes no other behaviour. -/
inductive RunEvent where
  | spawned : List String → RunEvent
  | progress : InstallProgress → RunEvent
  | output : String → StdStream → RunEvent
  | callbackOk : RunEvent
  | callbackErr : InstallError → RunEvent
deriving DecidableEq, Repr

/-- Mutable state of one run: the `stdoutData` and `stderrData`
accumulator strings. -/
structure RunState where
  stdoutData : String
  stderrData : String
deriving DecidableEq, Repr

/-- The synthetic starting progress record emitted after spawning. -/
def startingProgress : InstallProgress :=
  ⟨"starting", .int 0, .int 0, .int 0⟩

/-- The synthetic complete progress record emitted on exit code zero. -/
def completeProgress : InstallProgress :=
  ⟨"complete", .int 100, .int 0, .int 0⟩

/-- String interpolation of an exit code (`null` prints as "null"). -/
def codeText : Option ℕ → String
  | none => "null"
  | some n => toString n

/-- The `code && code > 0` test of the close handler: a `null` or zero
code is falsy, so only a positive numeric code takes the failure branch. -/
def exitFailed : Option ℕ → Bool
  | none => false
  | some n => decide (0 < n)

/-- One handler invocation of `install`: the stdout `data` handler
(accumulate, forward to the output sink, parse for progress), the stderr
`data` handler (accumulate, forward), the `error` handler (fail with
`SPAWN_ERROR`), and the `close` handler (log the exit line, then either
fail with `EXIT_ERROR` carrying the accumulated texts or emit the
synthetic complete progress and succeed). -/
def procStep (st : RunState) : ProcEvent → RunState × List RunEvent
  | .stdoutData s =>
      (⟨st.stdoutData ++ s, st.stderrData⟩,
        RunEvent.output s .stdoutStream ::
          (match parseProgress s with
          | some pr => [RunEvent.progress pr]
          | none => []))
  | .stderrData s =>
      (⟨st.stdoutData, st.stderrData ++ s⟩, [RunEvent.output s .stderrStream])
  | .errored msg =>
      (st, [RunEvent.callbackErr
        ⟨"Failed to spawn SteamCMD: " ++ msg, "SPAWN_ERROR", none, none, none⟩])
  | .closed code =>
      (st, RunEvent.output ("Process exited with code " ++ codeText code ++ "\n") .stdoutStream ::
        (if exitFailed code then
          [RunEvent.callbackErr
            ⟨"SteamCMD exited with code " ++ codeText code, "EXIT_ERROR",
              code, some st.stdoutData, some st.stderrData⟩]
        else
          [RunEvent.progress completeProgress, RunEvent.callbackOk]))

/-- Actions performed by the handlers over a delivered event sequence. -/
def runEvents (st : RunState) : List ProcEvent → List RunEvent
  | [] => []
  | e :: rest =>
      ((procStep st e).2) ++ runEvents (procStep st e).1 rest

/-- Run SteamCMD with the given options (function `install`, callback
form): validate the options (on failure the callback receives the error
and nothing else happens), validate the executable path, spawn the
process with the built arguments, emit the synthetic starting progress,
then service the process events. -/
def install (steamCmdPath : Option String) (o : InstallOptions) (b : ProcBehavior) :
    List RunEvent :=
  match validateOptions o with
  | some e => [RunEvent.callbackErr e]
  | none =>
    if !strOptTruthy steamCmdPath then
      [RunEvent.callbackErr
        ⟨"steamCmdPath must be a non-empty string", "INVALID_PATH", none, none, none⟩]
    else
      RunEvent.spawned (createArguments o) ::
      RunEvent.progress startingProgress ::
      runEvents ⟨"", ""⟩ (procEvents b)

/-- The same `install` run over a raw delivered event sequence, with no
restriction to a single terminal event: validation, path check, spawn,
synthetic starting progress, then the handlers serviced in delivery
order.  `install path o b` is by definition
`installEvents path o (procEvents b)`. -/
def installEvents (steamCmdPath : Option String) (o : InstallOptions)
    (evs : List ProcEvent) : List RunEvent :=
  match validateOptions o with
  | some e => [RunEvent.callbackErr e]
  | none =>
    if !strOptTruthy steamCmdPath then
      [RunEvent.callbackErr
        ⟨"steamCmdPath must be a non-empty string", "INVALID_PATH", none, none, none⟩]
    else
      RunEvent.spawned (createArguments o) ::
      RunEvent.progress startingProgress ::
      runEvents ⟨"", ""⟩ evs

/-- Event emitted on the `installWithProgress` emitter. -/
inductive EmitterEvent where
  | progress : InstallProgress → EmitterEvent
  | output : String → StdStream → EmitterEvent
  | complete : EmitterEvent
  | error : InstallError → EmitterEvent
deriving DecidableEq, Repr

/-- How `installWithProgress` translates each action of the underlying
`install` run into an emitter event: the sinks re-emit progress and
output, the completion callback emits `error` or `complete`, and the
spawn itself is not observable on the emitter. -/
def runToEmitter : RunEvent → Option EmitterEvent
  | .spawned _ => none
  | .progress p => some (.progress p)
  | .output d t => some (.output d t)
  | .callbackOk => some .complete
  | .callbackErr e => some (.error e)

/-- Run SteamCMD with EventEmitter-based progress (function
`installWithProgress`): the same run as `install` with the sinks and the
callback wired to emitter events; the `process.nextTick` deferral changes
when the first event fires, not the order of events, so the model is the
translated trace. -/
def installWithProgress (steamCmdPath : Option String) (o : InstallOptions)
    (b : ProcBehavior) : List EmitterEvent :=
  (install steamCmdPath o b).filterMap runToEmitter

/-- Events the handlers produce for a chunk list (used to state the run
characterisation): each stdout chunk yields its output event followed by
a parsed progress event when the parser matches; each stderr chunk yields
its output event. -/
def chunkTrace : List Chunk → List RunEvent
  | [] => []
  | .stdoutChunk s :: r =>
      RunEvent.output s .stdoutStream ::
        ((match parseProgress s with
          | some pr => [RunEvent.progress pr]
          | none => []) ++ chunkTrace r)
  | .stderrChunk s :: r => RunEvent.output s .stderrStream :: chunkTrace r

/-- Concatenation of the stdout chunks in arrival order. -/
def stdoutText : List Chunk → String
  | [] => ""
  | .stdoutChunk s :: r => s ++ stdoutText r
  | .stderrChunk _ :: r => stdoutText r

/-- Concatenation of the stderr chunks in arrival order. -/
def stderrText : List Chunk → String
  | [] => ""
  | .stdoutChunk _ :: r => stderrText r
  | .stderrChunk s :: r => s ++ stderrText r

/-- Accumulator state after the data handlers have seen a chunk list. -/
def accumState (st : RunState) : List Chunk → RunState
  | [] => st
  | .stdoutChunk s :: r => accumState ⟨st.stdoutData ++ s, st.stderrData⟩ r
  | .stderrChunk s :: r => accumState ⟨st.stdoutData, st.stderrData ++ s⟩ r

/-- Completion signal on the callback surface: the callback fires, with
`null` or with an error. -/
def isCompletionEvent : RunEvent → Bool
  | .callbackOk => true
  | .callbackErr _ => true
  | _ => false

/-- Completion signal on the emitter surface. -/
def isEmitterCompletion : EmitterEvent → Bool
  | .complete => true
  | .error _ => true
  | _ => false

/-- Detects the `execFile` spawn action in a run trace. -/
def isSpawnEvent : RunEvent → Bool
  | .spawned _ => true
  | _ => false

/-- Detects the synthetic starting progress event in a run trace. -/
def isStartingEvent : RunEvent → Bool
  | .progress pr => pr == startingProgress
  | _ => false

/-- The `MISSING_APP_ID` error value thrown by `validateOptions`. -/
def missingAppIdError : InstallError :=
  ⟨"workshopId requires applicationId to be specified", "MISSING_APP_ID", none, none, none⟩

/-- Token recogniser used to state the builder claims: does the token
begin with the given literal prefix? -/
def hasTokenPrefix (pre tok : String) : Bool := pre.data.isPrefixOf tok.data

/-- Is this Progress number a non-negative integer (not `NaN`)? -/
def JsNumber.isNonnegInt : JsNumber → Bool
  | .int n => decide (0 ≤ n)
  | .nan => false

/-- Is this Progress number an integer within the closed interval? -/
def JsNumber.isIntBetween (x : JsNumber) (lo hi : ℤ) : Bool :=
  match x with
  | .int n => decide (lo ≤ n) && decide (n ≤ hi)
  | .nan => false

/-- Concrete options with both ids set, for the builder witnesses. -/
def optsBothIds : InstallOptions :=
  { applicationId := some (.str "740"), workshopId := some (.str "123") }

/-- Concrete options with only the application id set. -/
def optsAppOnly : InstallOptions := { applicationId := some (.str "740") }

lemma install_eq_installEvents (path : Option String) (o : InstallOptions)
    (b : ProcBehavior) : install path o b = installEvents path o (procEvents b) := rfl

lemma runEvents_chunks (chunks : List Chunk) (st : RunState) (rest : List ProcEvent) :
    runEvents st (chunks.map chunkEvent ++ rest) =
      chunkTrace chunks ++ runEvents (accumState st chunks) rest := by
  induction chunks generalizing st with
  | nil => simp [chunkTrace, accumState]
  | cons c r ih =>
      cases c with
      | stdoutChunk s =>
          simp [chunkEvent, runEvents, procStep, chunkTrace, accumState, ih]
      | stderrChunk s =>
          simp [chunkEvent, runEvents, procStep, chunkTrace, accumState, ih]

lemma accumState_eq (chunks : List Chunk) (st : RunState) :
    accumState st chunks =
      ⟨st.stdoutData ++ stdoutText chunks, st.stderrData ++ stderrText chunks⟩ := by
  induction chunks generalizing st with
  | nil => simp [accumState, stdoutText, stderrText]
  | cons c r ih =>
      cases c with
      | stdoutChunk s =>
          simp [accumState, stdoutText, stderrText, ih, String.append_assoc]
      | stderrChunk s =>
          simp [accumState, stdoutText, stderrText, ih, String.append_assoc]

/-- Full characterisation of an `install` run that passes validation:
the spawn with the built arguments, the synthetic starting progress, the
per-chunk events, and the terminal events of the delivered terminal. -/
lemma install_trace (p : String) (hp : p ≠ "") (o : InstallOptions)
    (hv : validateOptions o = none) (chunks : List Chunk) (t : ProcTerminal) :
    install (some p) o ⟨chunks, t⟩ =
      RunEvent.spawned (createArguments o) ::
      RunEvent.progress startingProgress ::
      chunkTrace chunks ++
      (match t with
        | .errored m =>
            [RunEvent.callbackErr
              ⟨"Failed to spawn SteamCMD: " ++ m, "SPAWN_ERROR", none, none, none⟩]
        | .closed code =>
            RunEvent.output ("Process exited with code " ++ codeText code ++ "\n")
              .stdoutStream ::
            (if exitFailed code then
              [RunEvent.callbackErr
                ⟨"SteamCMD exited with code " ++ codeText code, "EXIT_ERROR",
                  code, some (stdoutText chunks), some (stderrText chunks)⟩]
            else
              [RunEvent.progress completeProgress, RunEvent.callbackOk])) := by
  have hpe : p.isEmpty = false := by
    cases h : p.isEmpty
    · rfl
    · exact absurd ((String.isEmpty_iff p).mp h) hp
  have hpath : strOptTruthy (some p) = true := by
    simp [strOptTruthy, hpe]
  rw [install, hv]
  simp only [hpath, Bool.not_true, Bool.false_eq_true, if_false, procEvents,
    runEvents_chunks, accumState_eq]
  cases t with
  | errored m => simp [runEvents, procStep]
  | closed code => cases hf : exitFailed code <;> simp [runEvents, procStep, hf]

@[simp] lemma isCompletionEvent_spawned (a : List String) :
    isCompletionEvent (RunEvent.spawned a) = false := rfl

@[simp] lemma isCompletionEvent_progress (p : InstallProgress) :
    isCompletionEvent (RunEvent.progress p) = false := rfl

@[simp] lemma isCompletionEvent_output (d : String) (t : StdStream) :
    isCompletionEvent (RunEvent.output d t) = false := rfl

@[simp] lemma isCompletionEvent_ok : isCompletionEvent RunEvent.callbackOk = true := rfl

@[simp] lemma isCompletionEvent_err (e : InstallError) :
    isCompletionEvent (RunEvent.callbackErr e) = true := rfl

@[simp] lemma isEmitterCompletion_progress (p : InstallProgress) :
    isEmitterCompletion (EmitterEvent.progress p) = false := rfl

@[simp] lemma isEmitterCompletion_output (d : String) (t : StdStream) :
    isEmitterCompletion (EmitterEvent.output d t) = false := rfl

@[simp] lemma isEmitterCompletion_complete :
    isEmitterCompletion EmitterEvent.complete = true := rfl

@[simp] lemma isEmitterCompletion_error (e : InstallError) :
    isEmitterCompletion (EmitterEvent.error e) = true := rfl

lemma chunkTrace_completion_free (chunks : List Chunk) :
    ∀ e ∈ chunkTrace chunks, isCompletionEvent e = false := by
  induction chunks with
  | nil => simp [chunkTrace]
  | cons c r ih =>
      cases c with
      | stdoutChunk s =>
          intro e he
          cases hps : parseProgress s with
          | none =>
              simp [chunkTrace, hps] at he
              rcases he with h | h
              · subst h; simp
              · exact ih e h
          | some pr =>
              simp [chunkTrace, hps] at he
              rcases he with h | h | h
              · subst h; simp
              · subst h; simp
              · exact ih e h
      | stderrChunk s =>
          intro e he
          simp [chunkTrace] at he
          rcases he with h | h
          · subst h; simp
          · exact ih e h

lemma getLast?_append_singleton {α : Type} (l : List α) (a : α) :
    (l ++ [a]).getLast? = some a :=
  List.getLast?_concat l

/-- Every run of `install` decomposes as a completion-free prefix
followed by a single completion event. -/
lemma install_shape (path : Option String) (o : InstallOptions) (b : ProcBehavior) :
    ∃ (pre : List RunEvent) (e : RunEvent),
      install path o b = pre ++ [e] ∧ isCompletionEvent e = true ∧
        ∀ x ∈ pre, isCompletionEvent x = false := by
  obtain ⟨chunks, t⟩ := b
  rw [install]
  cases hv : validateOptions o with
  | some e => exact ⟨[], RunEvent.callbackErr e, rfl, rfl, by simp⟩
  | none =>
      cases hpath : strOptTruthy path with
      | false =>
          refine ⟨[], RunEvent.callbackErr
            ⟨"steamCmdPath must be a non-empty string", "INVALID_PATH", none, none, none⟩,
            ?_, rfl, by simp⟩
          simp
      | true =>
          simp only [Bool.not_true, Bool.false_eq_true, if_false, procEvents,
            runEvents_chunks]
          cases t with
          | errored m =>
              refine ⟨RunEvent.spawned (createArguments o) ::
                RunEvent.progress startingProgress :: chunkTrace chunks,
                RunEvent.callbackErr
                  ⟨"Failed to spawn SteamCMD: " ++ m, "SPAWN_ERROR", none, none, none⟩,
                by simp [runEvents, procStep], rfl, ?_⟩
              intro x hx
              simp at hx
              rcases hx with h | h | h
              · subst h; simp
              · subst h; simp
              · exact chunkTrace_completion_free chunks x h
          | closed code =>
              cases hf : exitFailed code with
              | true =>
                  refine ⟨RunEvent.spawned (createArguments o) ::
                    RunEvent.progress startingProgress :: chunkTrace chunks ++
                      [RunEvent.output
                        ("Process exited with code " ++ codeText code ++ "\n")
                        .stdoutStream],
                    RunEvent.callbackErr
                      ⟨"SteamCMD exited with code " ++ codeText code, "EXIT_ERROR",
                        code, some (accumState ⟨"", ""⟩ chunks).stdoutData,
                        some (accumState ⟨"", ""⟩ chunks).stderrData⟩,
                    by simp [runEvents, procStep, hf], rfl, ?_⟩
                  intro x hx
                  simp at hx
                  rcases hx with h | h | h | h
                  · subst h; simp
                  · subst h; simp
                  · exact chunkTrace_completion_free chunks x h
                  · subst h; simp
              | false =>
                  refine ⟨RunEvent.spawned (createArguments o) ::
                    RunEvent.progress startingProgress :: chunkTrace chunks ++
                      [RunEvent.output
                        ("Process exited with code " ++ codeText code ++ "\n")
                        .stdoutStream,
                       RunEvent.progress completeProgress],
                    RunEvent.callbackOk,
                    by simp [runEvents, procStep, hf], rfl, ?_⟩
                  intro x hx
                  simp at hx
                  rcases hx with h | h | h | h | h
                  · subst h; simp
                  · subst h; simp
                  · exact chunkTrace_completion_free chunks x h
                  · subst h; simp
                  · subst h; simp

lemma filterMap_completion_free (l : List RunEvent)
    (h : ∀ x ∈ l, isCompletionEvent x = false) :
    ∀ em ∈ l.filterMap runToEmitter, isEmitterCompletion em = false := by
  intro em hem
  rcases List.mem_filterMap.mp hem with ⟨x, hx, hfx⟩
  have hc := h x hx
  cases x with
  | spawned a => simp [runToEmitter] at hfx
  | progress p => simp [runToEmitter] at hfx; subst hfx; simp
  | output d t => simp [runToEmitter] at hfx; subst hfx; simp
  | callbackOk => simp at hc
  | callbackErr e => simp at hc

/-- Scope-limited positive part of the completion contract: on every
single-terminal delivery (in particular every run whose process exits),
both surfaces fire exactly one completion signal and it is the last
event.  This does NOT extend to Node's error-then-close delivery on a
failed spawn, where the unguarded close handler fires the completion a
second time — see the spawn-error theorem below. -/
lemma completion_once_on_single_terminal (path : Option String) (o : InstallOptions)
    (b : ProcBehavior) :
    ((install path o b).countP (fun e => isCompletionEvent e) = 1 ∧
      ∃ e, (install path o b).getLast? = some e ∧ isCompletionEvent e = true) ∧
    ((installWithProgress path o b).countP (fun em => isEmitterCompletion em) = 1 ∧
      ∃ em, (installWithProgress path o b).getLast? = some em ∧
        isEmitterCompletion em = true) := by
  obtain ⟨pre, e, hsh, hce, hfree⟩ := install_shape path o b
  have hpre0 : pre.countP (fun x => isCompletionEvent x) = 0 :=
    List.countP_eq_zero.mpr (by intro x hx; simp [hfree x hx])
  obtain ⟨em, hem, hemc⟩ : ∃ em, runToEmitter e = some em ∧ isEmitterCompletion em = true := by
    cases e with
    | spawned a => simp at hce
    | progress p => simp at hce
    | output d t => simp at hce
    | callbackOk => exact ⟨EmitterEvent.complete, rfl, rfl⟩
    | callbackErr err => exact ⟨EmitterEvent.error err, rfl, rfl⟩
  have hemtrace : installWithProgress path o b =
      pre.filterMap runToEmitter ++ [em] := by
    rw [installWithProgress, hsh, List.filterMap_append]
    simp [hem]
  have hempre0 : (pre.filterMap runToEmitter).countP (fun x => isEmitterCompletion x) = 0 :=
    List.countP_eq_zero.mpr
      (by intro x hx; simp [filterMap_completion_free pre hfree x hx])
  refine ⟨⟨?_, ⟨e, ?_, hce⟩⟩, ⟨?_, ⟨em, ?_, hemc⟩⟩⟩
  · rw [hsh, List.countP_append, hpre0]
    simp [List.countP_cons, hce]
  · rw [hsh]; exact getLast?_append_singleton pre e
  · rw [hemtrace, List.countP_append, hempre0]
    simp [List.countP_cons, hemc]
  · rw [hemtrace]; exact getLast?_append_singleton _ em

/-- C2 (code bug): the spec requires exactly one completion signal per
run, never both and never more than once; the code violates this on a
failed spawn.  Node then delivers `error` and afterwards still `close`
with a `null` exit code, and the close handler of the source
(`install.ts` lines 372-397) runs unguarded: `code && code > 0` is falsy
for `null`, so after the `SPAWN_ERROR` callback the run emits a synthetic
complete progress and invokes the callback a second time with `null` —
two completion signals on the callback surface and `error` followed by
`complete` on the emitter surface. -/
theorem spawn_error_double_completion_bug :
    installEvents (some "steamcmd") {}
        [ProcEvent.errored "ENOENT", ProcEvent.closed none] =
      [RunEvent.spawned (createArguments {}),
       RunEvent.progress startingProgress,
       RunEvent.callbackErr
         ⟨"Failed to spawn SteamCMD: ENOENT", "SPAWN_ERROR", none, none, none⟩,
       RunEvent.output "Process exited with code null\n" .stdoutStream,
       RunEvent.progress completeProgress,
       RunEvent.callbackOk] ∧
    (installEvents (some "steamcmd") {}
        [ProcEvent.errored "ENOENT", ProcEvent.closed none]).countP
      (fun e => isCompletionEvent e) = 2 ∧
    ((installEvents (some "steamcmd") {}
        [ProcEvent.errored "ENOENT", ProcEvent.closed none]).filterMap
          runToEmitter).countP (fun em => isEmitterCompletion em) = 2 :=
  ⟨by decide, by decide, by decide⟩

/-- C1: in every validated run whose process exits, exit code 0 makes the
runner emit the synthetic complete progress (phase "complete", percent
100, bytes 0/0) and then signal success, while a nonzero exit code makes
the run fail with an `EXIT_ERROR` carrying that exit code and the full
stdout and stderr text accumulated exactly as the chunks arrived — and on
that failure path the runner emits no synthetic complete progress: after
the chunk events only the exit-line output and the error callback occur. -/
theorem exit_completion_contract (p : String) (hp : p ≠ "") (o : InstallOptions)
    (hv : validateOptions o = none) (chunks : List Chunk) :
    (install (some p) o ⟨chunks, .closed (some 0)⟩ =
      RunEvent.spawned (createArguments o) ::
      RunEvent.progress startingProgress ::
      chunkTrace chunks ++
      [RunEvent.output "Process exited with code 0\n" .stdoutStream,
       RunEvent.progress completeProgress, RunEvent.callbackOk]) ∧
    ∀ c : ℕ,
      install (some p) o ⟨chunks, .closed (some (c + 1))⟩ =
        RunEvent.spawned (createArguments o) ::
        RunEvent.progress startingProgress ::
        chunkTrace chunks ++
        [RunEvent.output ("Process exited with code " ++ toString (c + 1) ++ "\n")
          .stdoutStream,
         RunEvent.callbackErr
           ⟨"SteamCMD exited with code " ++ toString (c + 1), "EXIT_ERROR",
             some (c + 1), some (stdoutText chunks), some (stderrText chunks)⟩] := by
  constructor
  · have hs : "Process exited with code " ++ toString (0 : ℕ) ++ "\n" =
        "Process exited with code 0\n" := by decide
    rw [install_trace p hp o hv chunks (.closed (some 0))]
    simp [exitFailed, codeText, hs]
  · intro c
    rw [install_trace p hp o hv chunks (.closed (some (c + 1)))]
    simp [exitFailed, codeText]

theorem exit_completion_contract_witness :
    (install (some "steamcmd") {} ⟨[Chunk.stdoutChunk "abc", Chunk.stderrChunk "oops"],
        .closed (some 0)⟩ =
      RunEvent.spawned (createArguments {}) ::
      RunEvent.progress startingProgress ::
      chunkTrace [Chunk.stdoutChunk "abc", Chunk.stderrChunk "oops"] ++
      [RunEvent.output "Process exited with code 0\n" .stdoutStream,
       RunEvent.progress completeProgress, RunEvent.callbackOk]) ∧
    install (some "steamcmd") {} ⟨[Chunk.stdoutChunk "abc", Chunk.stderrChunk "oops"],
        .closed (some 1)⟩ =
      RunEvent.spawned (createArguments {}) ::
      RunEvent.progress startingProgress ::
      chunkTrace [Chunk.stdoutChunk "abc", Chunk.stderrChunk "oops"] ++
      [RunEvent.output ("Process exited with code " ++ toString (0 + 1) ++ "\n")
        .stdoutStream,
       RunEvent.callbackErr
         ⟨"SteamCMD exited with code " ++ toString (0 + 1), "EXIT_ERROR",
           some (0 + 1),
           some (stdoutText [Chunk.stdoutChunk "abc", Chunk.stderrChunk "oops"]),
           some (stderrText [Chunk.stdoutChunk "abc", Chunk.stderrChunk "oops"])⟩] :=
  ⟨(exit_completion_contract "steamcmd" (by decide) {} (by rfl)
      [Chunk.stdoutChunk "abc", Chunk.stderrChunk "oops"]).1,
   (exit_completion_contract "steamcmd" (by decide) {} (by rfl)
      [Chunk.stdoutChunk "abc", Chunk.stderrChunk "oops"]).2 0⟩

/-- C3 counterexample: in a concrete validated run the spawn action is
the first event (index 0) and the synthetic starting progress event comes
only after it (index 1) — the source calls `execFile` before invoking the
progress sink — so the claim that the starting event is delivered before
the process is spawned is false. -/
theorem starting_after_spawn_cex :
    (install (some "steamcmd") {} ⟨[], .closed (some 0)⟩).findIdx isSpawnEvent = 0 ∧
    (install (some "steamcmd") {} ⟨[], .closed (some 0)⟩).findIdx isStartingEvent = 1 ∧
    ¬ (install (some "steamcmd") {} ⟨[], .closed (some 0)⟩).findIdx isStartingEvent <
        (install (some "steamcmd") {} ⟨[], .closed (some 0)⟩).findIdx isSpawnEvent := by
  refine ⟨by decide, by decide, by decide⟩

/-- C3 amended: in every run that passes validation the synthetic
starting progress event (phase "starting", percent 0, bytes 0/0) is
delivered immediately after the external process is spawned and before
every output, progress and completion event of the run. -/
theorem starting_before_process_events (p : String) (hp : p ≠ "") (o : InstallOptions)
    (hv : validateOptions o = none) (b : ProcBehavior) :
    install (some p) o b =
      RunEvent.spawned (createArguments o) ::
      RunEvent.progress startingProgress ::
      runEvents ⟨"", ""⟩ (procEvents b) := by
  have hpe : p.isEmpty = false := by
    cases h : p.isEmpty
    · rfl
    · exact absurd ((String.isEmpty_iff p).mp h) hp
  rw [install, hv]
  simp [strOptTruthy, hpe]

theorem starting_before_process_events_witness :
    install (some "steamcmd") {} ⟨[Chunk.stdoutChunk "x"], .closed (some 0)⟩ =
      RunEvent.spawned (createArguments {}) ::
      RunEvent.progress startingProgress ::
      runEvents ⟨"", ""⟩ (procEvents ⟨[Chunk.stdoutChunk "x"], .closed (some 0)⟩) :=
  starting_before_process_events "steamcmd" (by decide) {} (by rfl)
    ⟨[Chunk.stdoutChunk "x"], .closed (some 0)⟩

/-- C9: whenever `workshopId` is present and `applicationId` is absent,
validation throws `MISSING_APP_ID`; the run consists solely of the
rejection callback — in particular `createArguments` is never invoked
(there is no spawn action carrying its output) and no process is
spawned. -/
theorem missing_app_id_rejection (path : Option String) (o : InstallOptions)
    (b : ProcBehavior) (w : JsValue) (hw : o.workshopId = some w)
    (ha : o.applicationId = none) :
    validateOptions o = some missingAppIdError ∧
    install path o b = [RunEvent.callbackErr missingAppIdError] ∧
    ∀ args : List String, RunEvent.spawned args ∉ install path o b := by
  have hv : validateOptions o = some missingAppIdError := by
    rw [validateOptions, ha, hw]
    simp [optValTruthy, missingAppIdError]
  have hi : install path o b = [RunEvent.callbackErr missingAppIdError] := by
    rw [install, hv]
  exact ⟨hv, hi, by intro args; rw [hi]; simp⟩

theorem missing_app_id_rejection_witness :
    validateOptions { workshopId := some (.str "123") } = some missingAppIdError ∧
    install (some "steamcmd") { workshopId := some (.str "123") }
        ⟨[], .closed (some 0)⟩ =
      [RunEvent.callbackErr missingAppIdError] ∧
    ∀ args : List String,
      RunEvent.spawned args ∉
        install (some "steamcmd") { workshopId := some (.str "123") }
          ⟨[], .closed (some 0)⟩ :=
  missing_app_id_rejection (some "steamcmd") { workshopId := some (.str "123") }
    ⟨[], .closed (some 0)⟩ (.str "123") rfl rfl

lemma hasTokenPrefix_append_self (pre rest : String) :
    hasTokenPrefix pre (pre ++ rest) = true := by
  rw [hasTokenPrefix, String.data_append]
  exact List.isPrefixOf_iff_prefix.mpr (List.prefix_append _ _)

lemma not_prefix_of_append {p t : List Char} (h1 : ¬ p <+: t) (h2 : ¬ t <+: p)
    (u : List Char) : ¬ p <+: t ++ u := by
  intro h
  rcases Nat.le_total p.length t.length with hle | hle
  · exact h1 (List.prefix_of_prefix_length_le h (List.prefix_append t u) hle)
  · exact h2 (List.prefix_of_prefix_length_le (List.prefix_append t u) h hle)

lemma hasTokenPrefix_clash (pre t rest : String) (h1 : ¬ pre.data <+: t.data)
    (h2 : ¬ t.data <+: pre.data) : hasTokenPrefix pre (t ++ rest) = false := by
  rw [hasTokenPrefix, String.data_append]
  exact Bool.eq_false_iff.mpr
    (fun hc => not_prefix_of_append h1 h2 rest.data (List.isPrefixOf_iff_prefix.mp hc))

lemma platformArgs_countP_app (o : InstallOptions) :
    (platformArgs o).countP (fun tok => hasTokenPrefix "+app_update " tok) = 0 := by
  rcases h : o.platform with _ | pl
  · simp [platformArgs, h]
  · cases pl <;> simp only [platformArgs, h] <;> decide

lemma platformArgs_countP_workshop (o : InstallOptions) :
    (platformArgs o).countP (fun tok => hasTokenPrefix "+workshop_download_item " tok) = 0 := by
  rcases h : o.platform with _ | pl
  · simp [platformArgs, h]
  · cases pl <;> simp only [platformArgs, h] <;> decide

lemma guardArgs_countP_app (o : InstallOptions) :
    (guardArgs o).countP (fun tok => hasTokenPrefix "+app_update " tok) = 0 := by
  rcases h : o.steamGuardCode with _ | s
  · simp [guardArgs, h]
  · simp only [guardArgs, h]
    split
    · simp [List.countP_cons, hasTokenPrefix_clash "+app_update " "+set_steam_guard_code " s
        (by decide) (by decide)]
    · rfl

lemma guardArgs_countP_workshop (o : InstallOptions) :
    (guardArgs o).countP (fun tok => hasTokenPrefix "+workshop_download_item " tok) = 0 := by
  rcases h : o.steamGuardCode with _ | s
  · simp [guardArgs, h]
  · simp only [guardArgs, h]
    split
    · simp [List.countP_cons,
        hasTokenPrefix_clash "+workshop_download_item " "+set_steam_guard_code " s
          (by decide) (by decide)]
    · rfl

lemma loginArgs_countP_app (o : InstallOptions) :
    (loginArgs o).countP (fun tok => hasTokenPrefix "+app_update " tok) = 0 := by
  rw [loginArgs]
  split
  · rw [show "+login " ++ o.username.getD "" ++ " " ++ o.password.getD "" =
      "+login " ++ (o.username.getD "" ++ (" " ++ o.password.getD "")) by
        simp [String.append_assoc]]
    simp [List.countP_cons, hasTokenPrefix_clash "+app_update " "+login "
      (o.username.getD "" ++ (" " ++ o.password.getD "")) (by decide) (by decide)]
  · split
    · simp [List.countP_cons, hasTokenPrefix_clash "+app_update " "+login "
        (o.username.getD "") (by decide) (by decide)]
    · decide

lemma loginArgs_countP_workshop (o : InstallOptions) :
    (loginArgs o).countP (fun tok => hasTokenPrefix "+workshop_download_item " tok) = 0 := by
  rw [loginArgs]
  split
  · rw [show "+login " ++ o.username.getD "" ++ " " ++ o.password.getD "" =
      "+login " ++ (o.username.getD "" ++ (" " ++ o.password.getD "")) by
        simp [String.append_assoc]]
    simp [List.countP_cons, hasTokenPrefix_clash "+workshop_download_item " "+login "
      (o.username.getD "" ++ (" " ++ o.password.getD "")) (by decide) (by decide)]
  · split
    · simp [List.countP_cons, hasTokenPrefix_clash "+workshop_download_item " "+login "
        (o.username.getD "") (by decide) (by decide)]
    · decide

lemma pathArgs_countP_app (o : InstallOptions) :
    (pathArgs o).countP (fun tok => hasTokenPrefix "+app_update " tok) = 0 := by
  rcases h : o.path with _ | s
  · simp [pathArgs, h]
  · simp only [pathArgs, h]
    split
    · simp [List.countP_cons, hasTokenPrefix_clash "+app_update " "+force_install_dir \""
        (s ++ "\"") (by decide) (by decide), String.append_assoc]
    · rfl

lemma pathArgs_countP_workshop (o : InstallOptions) :
    (pathArgs o).countP (fun tok => hasTokenPrefix "+workshop_download_item " tok) = 0 := by
  rcases h : o.path with _ | s
  · simp [pathArgs, h]
  · simp only [pathArgs, h]
    split
    · simp [List.countP_cons,
        hasTokenPrefix_clash "+workshop_download_item " "+force_install_dir \""
          (s ++ "\"") (by decide) (by decide), String.append_assoc]
    · rfl

lemma appArgs_countP_workshop (o : InstallOptions) :
    (appArgs o).countP (fun tok => hasTokenPrefix "+workshop_download_item " tok) = 0 := by
  rw [appArgs]
  split
  · simp [List.countP_cons,
      hasTokenPrefix_clash "+workshop_download_item " "+app_update "
        (jsValToString ((o.applicationId).getD (.num 0)) ++ " validate")
        (by decide) (by decide), String.append_assoc]
  · rfl

lemma workshopArgs_countP_app (o : InstallOptions) :
    (workshopArgs o).countP (fun tok => hasTokenPrefix "+app_update " tok) = 0 := by
  rw [workshopArgs]
  split
  · simp [List.countP_cons,
      hasTokenPrefix_clash "+app_update " "+workshop_download_item "
        (jsValToString ((o.applicationId).getD (.num 0)) ++ (" " ++
          jsValToString ((o.workshopId).getD (.num 0)))) (by decide) (by decide),
      String.append_assoc]
  · rfl

lemma idCheck_truthy (v : JsValue) (hn : jsIsNaN (jsToNumber v) = false)
    (hl : jsLeZero (jsToNumber v) = false) : jsTruthy v = true := by
  cases v with
  | nan => simp [jsToNumber, jsIsNaN] at hn
  | posInf => rfl
  | negInf => simp [jsToNumber, jsLeZero] at hl
  | num q =>
      simp [jsToNumber, jsLeZero] at hl
      simp [jsTruthy]
      exact ne_of_gt hl
  | str s =>
      by_cases hs : s = ""
      · subst hs
        have h0 : jsToNumber (JsValue.str "") = JsValue.num 0 := by decide
        rw [h0] at hl
        simp [jsLeZero] at hl
      · have hse : s.isEmpty = false := by
          cases h : s.isEmpty
          · rfl
          · exact absurd ((String.isEmpty_iff s).mp h) hs
        simp [jsTruthy, hse]

/-- Ids that survive validation are truthy: a defined `applicationId` or
`workshopId` on which `validateOptions` did not throw converts to a
positive integer, hence is a nonzero number or non-empty string. -/
lemma validated_ids (o : InstallOptions) (hv : validateOptions o = none) :
    (∀ a, o.applicationId = some a → jsTruthy a = true) ∧
    (∀ w, o.workshopId = some w → jsTruthy w = true) := by
  rw [validateOptions] at hv
  split at hv
  · exact absurd hv (by simp)
  next h1 =>
    split at hv
    · exact absurd hv (by simp)
    next h2 =>
      split at hv
      · exact absurd hv (by simp)
      next h3 =>
        constructor
        · intro a ha
          rw [ha] at h1
          simp at h1
          exact idCheck_truthy a h1.1.1 h1.1.2
        · intro w hw
          rw [hw] at h3
          simp at h3
          exact idCheck_truthy w h3.1.1 h3.1.2

/-- C4: for every options value the last token `createArguments` produces
is the quit token `+quit`; and whenever `platform` is set, the first
token is the platform-forcing token for that platform. -/
theorem quit_last_platform_first (o : InstallOptions) :
    (createArguments o).getLast? = some "+quit" ∧
    ∀ pl, o.platform = some pl →
      (createArguments o).head? = some ("+@sSteamCmdForcePlatformType " ++ pl.asString) := by
  constructor
  · rw [createArguments]
    exact getLast?_append_singleton _ _
  · intro pl hpl
    simp [createArguments, platformArgs, hpl]

theorem quit_last_platform_first_witness :
    (createArguments { platform := some .linux }).getLast? = some "+quit" ∧
    (createArguments { platform := some .linux }).head? =
      some ("+@sSteamCmdForcePlatformType " ++ SteamPlatform.asString .linux) :=
  ⟨(quit_last_platform_first { platform := some .linux }).1,
   (quit_last_platform_first { platform := some .linux }).2 .linux rfl⟩

lemma fixed_countP_app :
    (["+@NoPromptForPassword 1", "+@ShutdownOnFailedCommand 1"] : List String).countP
      (fun tok => hasTokenPrefix "+app_update " tok) = 0 := by decide

lemma fixed_countP_workshop :
    (["+@NoPromptForPassword 1", "+@ShutdownOnFailedCommand 1"] : List String).countP
      (fun tok => hasTokenPrefix "+workshop_download_item " tok) = 0 := by decide

lemma quit_countP_app :
    (["+quit"] : List String).countP (fun tok => hasTokenPrefix "+app_update " tok) = 0 := by
  decide

lemma quit_countP_workshop :
    (["+quit"] : List String).countP
      (fun tok => hasTokenPrefix "+workshop_download_item " tok) = 0 := by decide

/-- C5: under validated options, when both `applicationId` and
`workshopId` are set, the built argument list contains the
workshop-download token referencing both ids, exactly one token with the
workshop-download prefix, and no token with the app-update prefix; when
only `applicationId` is set, it contains the app-update token for that
id, exactly one token with the app-update prefix, and no token with the
workshop-download prefix. -/
theorem app_workshop_token_exclusivity (o : InstallOptions)
    (hv : validateOptions o = none) :
    (∀ a w, o.applicationId = some a → o.workshopId = some w →
      ("+workshop_download_item " ++ jsValToString a ++ " " ++ jsValToString w)
          ∈ createArguments o ∧
      (createArguments o).countP
        (fun tok => hasTokenPrefix "+workshop_download_item " tok) = 1 ∧
      (createArguments o).countP (fun tok => hasTokenPrefix "+app_update " tok) = 0) ∧
    (∀ a, o.applicationId = some a → o.workshopId = none →
      ("+app_update " ++ jsValToString a ++ " validate") ∈ createArguments o ∧
      (createArguments o).countP (fun tok => hasTokenPrefix "+app_update " tok) = 1 ∧
      (createArguments o).countP
        (fun tok => hasTokenPrefix "+workshop_download_item " tok) = 0) := by
  obtain ⟨hta_all, htw_all⟩ := validated_ids o hv
  constructor
  · intro a w ha hw
    have hta := hta_all a ha
    have htw := htw_all w hw
    have hws : workshopArgs o =
        ["+workshop_download_item " ++ jsValToString a ++ " " ++ jsValToString w] := by
      rw [workshopArgs, ha, hw]
      simp [optValTruthy, hta, htw]
    have hap : appArgs o = [] := by
      rw [appArgs, ha, hw]
      simp [optValTruthy, hta, htw]
    refine ⟨?_, ?_, ?_⟩
    · simp [createArguments, hws]
    · have hone : (["+workshop_download_item " ++ jsValToString a ++ " " ++
          jsValToString w] : List String).countP
            (fun tok => hasTokenPrefix "+workshop_download_item " tok) = 1 := by
        rw [show "+workshop_download_item " ++ jsValToString a ++ " " ++ jsValToString w =
          "+workshop_download_item " ++ (jsValToString a ++ (" " ++ jsValToString w)) by
            simp [String.append_assoc]]
        simp [List.countP_cons, hasTokenPrefix_append_self]
      rw [createArguments, hws, hap]
      repeat rw [List.countP_append]
      rw [platformArgs_countP_workshop, guardArgs_countP_workshop,
        loginArgs_countP_workshop, pathArgs_countP_workshop, fixed_countP_workshop,
        quit_countP_workshop, hone, List.countP_nil]
    · rw [createArguments, hws, hap]
      repeat rw [List.countP_append]
      rw [platformArgs_countP_app, guardArgs_countP_app, loginArgs_countP_app,
        pathArgs_countP_app, fixed_countP_app, quit_countP_app, List.countP_nil]
      have hz : (["+workshop_download_item " ++ jsValToString a ++ " " ++
          jsValToString w] : List String).countP
            (fun tok => hasTokenPrefix "+app_update " tok) = 0 := by
        rw [show "+workshop_download_item " ++ jsValToString a ++ " " ++ jsValToString w =
          "+workshop_download_item " ++ (jsValToString a ++ (" " ++ jsValToString w)) by
            simp [String.append_assoc]]
        simp [List.countP_cons, hasTokenPrefix_clash "+app_update " "+workshop_download_item "
          (jsValToString a ++ (" " ++ jsValToString w)) (by decide) (by decide)]
      rw [hz]
  · intro a ha hw
    have hta := hta_all a ha
    have hap : appArgs o = ["+app_update " ++ jsValToString a ++ " validate"] := by
      rw [appArgs, ha, hw]
      simp [optValTruthy, hta]
    have hws : workshopArgs o = [] := by
      rw [workshopArgs, hw]
      simp [optValTruthy]
    refine ⟨?_, ?_, ?_⟩
    · simp [createArguments, hap]
    · have hone : (["+app_update " ++ jsValToString a ++ " validate"] : List String).countP
          (fun tok => hasTokenPrefix "+app_update " tok) = 1 := by
        rw [show "+app_update " ++ jsValToString a ++ " validate" =
          "+app_update " ++ (jsValToString a ++ " validate") by simp [String.append_assoc]]
        simp [List.countP_cons, hasTokenPrefix_append_self]
      rw [createArguments, hws, hap]
      repeat rw [List.countP_append]
      rw [platformArgs_countP_app, guardArgs_countP_app, loginArgs_countP_app,
        pathArgs_countP_app, fixed_countP_app, quit_countP_app, hone, List.countP_nil]
    · rw [createArguments, hws, hap]
      repeat rw [List.countP_append]
      rw [platformArgs_countP_workshop, guardArgs_countP_workshop,
        loginArgs_countP_workshop, pathArgs_countP_workshop, fixed_countP_workshop,
        quit_countP_workshop, List.countP_nil]
      have hz : (["+app_update " ++ jsValToString a ++ " validate"] : List String).countP
          (fun tok => hasTokenPrefix "+workshop_download_item " tok) = 0 := by
        rw [show "+app_update " ++ jsValToString a ++ " validate" =
          "+app_update " ++ (jsValToString a ++ " validate") by simp [String.append_assoc]]
        simp [List.countP_cons, hasTokenPrefix_clash "+workshop_download_item " "+app_update "
          (jsValToString a ++ " validate") (by decide) (by decide)]
      rw [hz]

theorem app_workshop_token_exclusivity_witness :
    (("+workshop_download_item " ++ jsValToString (.str "740") ++ " " ++
        jsValToString (.str "123")) ∈ createArguments optsBothIds ∧
      (createArguments optsBothIds).countP
        (fun tok => hasTokenPrefix "+workshop_download_item " tok) = 1 ∧
      (createArguments optsBothIds).countP
        (fun tok => hasTokenPrefix "+app_update " tok) = 0) ∧
    ("+app_update " ++ jsValToString (.str "740") ++ " validate")
        ∈ createArguments optsAppOnly ∧
      (createArguments optsAppOnly).countP
        (fun tok => hasTokenPrefix "+app_update " tok) = 1 ∧
      (createArguments optsAppOnly).countP
        (fun tok => hasTokenPrefix "+workshop_download_item " tok) = 0 :=
  ⟨(app_workshop_token_exclusivity optsBothIds (by decide)).1
      (.str "740") (.str "123") rfl rfl,
   (app_workshop_token_exclusivity optsAppOnly (by decide)).2 (.str "740") rfl rfl⟩

/-- C6: the update-state format maps to the Progress fields with
round-half-up rounding of the fractional percentage: the documented line
yields phase "downloading", percent 45 and the two byte counts, and
fractional percents 12.50, 0.00 and 100.00 round to 13, 0 and 100. -/
theorem parse_update_state_rounding :
    parseProgress
        "Update state (0x61) downloading, progress: 45.23 (1234567890 / 2732853760)" =
      some ⟨"downloading", .int 45, .int 1234567890, .int 2732853760⟩ ∧
    parseProgress "Update state (0x61) downloading, progress: 12.50 (0 / 1)" =
      some ⟨"downloading", .int 13, .int 0, .int 1⟩ ∧
    parseProgress "Update state (0x61) downloading, progress: 0.00 (0 / 1)" =
      some ⟨"downloading", .int 0, .int 0, .int 1⟩ ∧
    parseProgress "Update state (0x61) downloading, progress: 100.00 (0 / 1)" =
      some ⟨"downloading", .int 100, .int 0, .int 1⟩ :=
  ⟨by decide, by decide, by decide, by decide⟩

/-- C8: the progress-bar format parses `[####    ] 50%` as downloading at
50 percent with zero byte counts, while a bar with no fill characters
matches no format (the fill group requires at least one `#`) and the
parser returns none. -/
theorem parse_progress_bar_contract :
    parseProgress "[####    ] 50%" = some ⟨"downloading", .int 50, .int 0, .int 0⟩ ∧
    parseProgress "[        ] 0%" = none :=
  ⟨by decide, by decide⟩

/-- C7 counterexample: the parser accepts `Validating: 250%` and returns
percent 250, which is not an integer between 0 and 100 — the code never
clamps the parsed percentage, so the claimed 0–100 bound is false. -/
theorem percent_above_100_cex :
    parseProgress "Validating: 250%" = some ⟨"validating", .int 250, .int 0, .int 0⟩ ∧
    (parseProgress "Validating: 250%").map
      (fun p => p.percent.isIntBetween 0 100) = some false :=
  ⟨by decide, by decide⟩

/-- C7 amended: whenever the parser returns a Progress value, its
bytesDownloaded and totalBytes are non-negative integers and its percent
is a non-negative integer or `NaN` (`NaN` can arise only from the
update-state format when the captured fraction is all dots); no upper
bound of 100 is enforced on percent. -/
theorem parse_progress_field_shape (s : String) (p : InstallProgress)
    (h : parseProgress s = some p) :
    p.bytesDownloaded.isNonnegInt = true ∧ p.totalBytes.isNonnegInt = true ∧
      (p.percent = JsNumber.nan ∨ p.percent.isNonnegInt = true) := by
  rw [parseProgress] at h
  cases hu : searchUpdate s.data with
  | some g =>
      obtain ⟨word, pct, b1, b2⟩ := g
      rw [hu] at h
      have hp := Option.some.inj h
      subst hp
      refine ⟨by simp [JsNumber.isNonnegInt], by simp [JsNumber.isNonnegInt], ?_⟩
      cases hf : parseFloatDec pct with
      | none => left; simp [hf]
      | some d => right; simp [hf, JsNumber.isNonnegInt]
  | none =>
      rw [hu] at h
      cases hv : searchValidating s.data with
      | some ds =>
          rw [hv] at h
          have hp := Option.some.inj h
          subst hp
          exact ⟨by simp [JsNumber.isNonnegInt], by simp [JsNumber.isNonnegInt],
            Or.inr (by simp [JsNumber.isNonnegInt])⟩
      | none =>
          rw [hv] at h
          cases hb : searchBar s.data with
          | some ds =>
              rw [hb] at h
              have hp := Option.some.inj h
              subst hp
              exact ⟨by simp [JsNumber.isNonnegInt], by simp [JsNumber.isNonnegInt],
                Or.inr (by simp [JsNumber.isNonnegInt])⟩
          | none => rw [hb] at h; exact absurd h (by simp)

theorem parse_progress_field_shape_witness :
    (InstallProgress.mk "validating" (.int 45) (.int 0) (.int 0)).bytesDownloaded.isNonnegInt
        = true ∧
    (InstallProgress.mk "validating" (.int 45) (.int 0) (.int 0)).totalBytes.isNonnegInt
        = true ∧
    ((InstallProgress.mk "validating" (.int 45) (.int 0) (.int 0)).percent = JsNumber.nan ∨
      (InstallProgress.mk "validating" (.int 45) (.int 0) (.int 0)).percent.isNonnegInt
        = true) :=
  parse_progress_field_shape "Validating: 45%" ⟨"validating", .int 45, .int 0, .int 0⟩
    (by decide)

/-- C10: validation tests `password` and `steamGuardCode` by JavaScript
truthiness, not definedness — with `username` absent and either field
equal to the empty string validation succeeds (shown on the options
values whose only set field is that empty string), with `username` absent
and both fields empty-or-absent no `MISSING_USERNAME` error can arise
whatever the other fields hold, and conversely `MISSING_USERNAME` is
raised only when one of the two fields holds a non-empty string while
`username` is falsy (absent or empty). -/
theorem password_truthiness_validation :
    (validateOptions { password := some "" } = none ∧
     validateOptions { steamGuardCode := some "" } = none) ∧
    (∀ (o : InstallOptions) (e : InstallError), o.username = none →
      (o.password = none ∨ o.password = some "") →
      (o.steamGuardCode = none ∨ o.steamGuardCode = some "") →
      validateOptions o = some e → e.code ≠ "MISSING_USERNAME") ∧
    (∀ (o : InstallOptions) (e : InstallError), validateOptions o = some e →
      e.code = "MISSING_USERNAME" →
      strOptTruthy o.username = false ∧
        ∃ s, s ≠ "" ∧ (o.password = some s ∨ o.steamGuardCode = some s)) := by
  refine ⟨⟨by decide, by decide⟩, ?_, ?_⟩
  · intro o e hu hpo hso hv
    have hpw : strOptTruthy o.password = false := by
      rcases hpo with h | h <;> rw [h] <;> decide
    have hsg : strOptTruthy o.steamGuardCode = false := by
      rcases hso with h | h <;> rw [h] <;> decide
    rw [validateOptions] at hv
    split at hv
    · rw [← Option.some.inj hv]; decide
    · split at hv
      · rw [← Option.some.inj hv]; decide
      · split at hv
        · rw [← Option.some.inj hv]; decide
        · split at hv
          · rw [← Option.some.inj hv]; decide
          · split at hv
            next hcond =>
              rw [hpw] at hcond
              simp at hcond
            next =>
              split at hv
              next hcond2 =>
                rw [hsg] at hcond2
                simp at hcond2
              next => exact absurd hv (by simp)
  · intro o e hv hcode
    rw [validateOptions] at hv
    split at hv
    · rw [← Option.some.inj hv] at hcode; simp at hcode
    · split at hv
      · rw [← Option.some.inj hv] at hcode; simp at hcode
      · split at hv
        · rw [← Option.some.inj hv] at hcode; simp at hcode
        · split at hv
          · rw [← Option.some.inj hv] at hcode; simp at hcode
          · split at hv
            next hcond =>
              rw [Bool.and_eq_true] at hcond
              refine ⟨by simpa using hcond.2, ?_⟩
              rcases hps : o.password with _ | s
              · rw [hps] at hcond
                exact absurd hcond.1 (by decide)
              · refine ⟨s, ?_, Or.inl rfl⟩
                intro hse
                subst hse
                rw [hps] at hcond
                exact absurd hcond.1 (by decide)
            next =>
              split at hv
              next hcond2 =>
                rw [Bool.and_eq_true] at hcond2
                refine ⟨by simpa using hcond2.2, ?_⟩
                rcases hps : o.steamGuardCode with _ | s
                · rw [hps] at hcond2
                  exact absurd hcond2.1 (by decide)
                · refine ⟨s, ?_, Or.inr rfl⟩
                  intro hse
                  subst hse
                  rw [hps] at hcond2
                  exact absurd hcond2.1 (by decide)
              next => exact absurd hv (by simp)

theorem password_truthiness_validation_witness :
    (validateOptions { password := some "" } = none ∧
     validateOptions { steamGuardCode := some "" } = none) ∧
    (InstallError.code
      ⟨"applicationId must be a positive integer", "INVALID_APP_ID", none, none, none⟩ ≠
        "MISSING_USERNAME") ∧
    strOptTruthy (InstallOptions.username { password := some "pw" }) = false ∧
      ∃ s, s ≠ "" ∧
        (InstallOptions.password { password := some "pw" } = some s ∨
          InstallOptions.steamGuardCode { password := some "pw" } = some s) :=
  ⟨password_truthiness_validation.1,
   password_truthiness_validation.2.1 { applicationId := some (.num 0) }
     ⟨"applicationId must be a positive integer", "INVALID_APP_ID", none, none, none⟩
     rfl (Or.inl rfl) (Or.inl rfl) (by decide),
   password_truthiness_validation.2.2 { password := some "pw" }
     ⟨"password requires username to be specified", "MISSING_USERNAME", none, none, none⟩
     (by decide) rfl⟩
